import Mathlib

/-!
Verification of the message ingestion and dispatch core of the msteams
gateway (source: `src/packages/msteams/src/app.js`).

The only source file of the repository is `app.js`, which wires the
components together.  The startup configuration sequence, the TTL constant
passed to the conversation-state storage, and the SIGINT shutdown handler
are embedded directly from that file.  The component internals
(`BotManager`, `RedisStorage`, `RabbitMqManager`, the connector's tenant
filter) live in modules that are not part of the repository snapshot, so
their behaviour is modelled from the specification, as marked on each
definition.
-/

namespace MSTeamsCore

/-- Tenant admission configuration of the Teams connector: either an
explicit allow-list of tenant ids, or the allow-all state. -/
inductive TenantMode
  | allowList (tenants : List String)
  | allowAll
deriving DecidableEq

namespace TenantGate

/-- Modelled from the spec: `TenantGate.check(tenantId) -> allow | deny`
(the connector's tenant filter is library code, not in the repository
snapshot; `app.js` documents that an empty list receives nothing and that
`resetAllowedTenants` allows every tenant).  Returns `true` for allow. -/
def check : TenantMode → String → Bool
  | .allowList l, t => l.contains t
  | .allowAll, _ => true

end TenantGate

/-- Modelled from the spec: `connector.setAllowedTenants(l)` replaces the
admission configuration with the explicit allow-list `l`. -/
def setAllowedTenants (l : List String) (_ : TenantMode) : TenantMode :=
  .allowList l

/-- Modelled from the spec: `connector.resetAllowedTenants()` resets the
admission configuration to allow-all. -/
def resetAllowedTenants (_ : TenantMode) : TenantMode :=
  .allowAll

/-- The tenant-configuration statements executed by `app.js` at startup,
in program order, followed by the point where the server begins to listen:
`connector.setAllowedTenants([])`, then `connector.resetAllowedTenants()`,
and `server.listen(config)` at the very end of the script. -/
inductive StartupStep
  | setTenants (l : List String)
  | resetTenants
  | listen
deriving DecidableEq

/-- The startup sequence of `app.js` restricted to the steps that touch
tenant admission, in source order (lines 56-59 and the final listen). -/
def appStartupSteps : List StartupStep :=
  [StartupStep.setTenants [], StartupStep.resetTenants, StartupStep.listen]

/-- Effect of a startup step on the connector's tenant mode. -/
def applyStep (m : TenantMode) : StartupStep → TenantMode
  | .setTenants l => setAllowedTenants l m
  | .resetTenants => resetAllowedTenants m
  | .listen => m

/-- Folds a prefix of the startup script over the tenant mode. -/
def applySteps (steps : List StartupStep) (m : TenantMode) : TenantMode :=
  steps.foldl applyStep m

/-- The tenant mode in effect when `server.listen` runs: the script is
sequential, so all steps before `.listen` have been applied. -/
def modeAtListen (init : TenantMode) : TenantMode :=
  applySteps (appStartupSteps.takeWhile (fun s => s ≠ StartupStep.listen)) init

/-- TTL, in seconds, configured for the conversation-state storage in
`app.js`: `new RedisStorage(30 * 60) // 30 minutes`. -/
def ttlSeconds : Nat := 30 * 60

/-- One live entry of the conversation-state store: the opaque serialized
blob and the expiry timestamp (last-touched + TTL). -/
structure StoreEntry where
  blob : String
  expiry : Nat
deriving DecidableEq

namespace ConversationStateStore

/-- The conversation-state store, keyed by conversation id. -/
def Store : Type := String → Option StoreEntry

/-- The store with no entries. -/
def emptyStore : Store := fun _ => none

/-- Reads a raw entry as the blob it holds, treating a passed expiry as
absent: present exactly when `now < expiry`. -/
def getEntry (now : Nat) : Option StoreEntry → Option String
  | none => none
  | some e => if now < e.expiry then some e.blob else none

/-- Modelled from the spec: `get(conversationId)` returns absent if there
is no entry or the entry's expiry has passed (`RedisStorage` is not in the
repository snapshot; `app.js` fixes its TTL argument). -/
def get (now : Nat) (cid : String) (s : Store) : Option String :=
  getEntry now (s cid)

/-- Modelled from the spec: `put(conversationId, blob)` upserts and resets
the expiry to now + TTL; overwrites are last-write-wins. -/
def put (now : Nat) (cid blob : String) (s : Store) : Store :=
  fun k => if k = cid then some ⟨blob, now + ttlSeconds⟩ else s k

/-- Modelled from the spec: `delete(conversationId)` explicitly
invalidates the entry. -/
def delete (cid : String) (s : Store) : Store :=
  fun k => if k = cid then none else s k

end ConversationStateStore

namespace MessageBroker

/-- Modelled from the spec: one publish attempt plus up to `budget`
retries after transient connection failures (`RabbitMqManager` is not in
the repository snapshot).  `failures` is the number of consecutive
transient failures the connection produces before an attempt succeeds;
the result is `true` when some attempt within the budget succeeds and
`false` when the budget is exhausted first (`PublishFailed`). -/
def publishAttempts : Nat → Nat → Bool
  | 0, _ => true
  | _ + 1, 0 => false
  | f + 1, b + 1 => publishAttempts f b

/-- Outcome of `close(timeout)`: the time at which the call returns, the
reported status, and the in-flight operations that were abandoned. -/
structure CloseOutcome where
  returnTime : Nat
  ok : Bool
  abandoned : List (Option Nat)
deriving DecidableEq

/-- Modelled from the spec: `close(timeout)` stops accepting new
publishes, waits for in-flight publishes/acks to settle or until the
timeout elapses, then closes the connection; it returns success even when
some operations were abandoned, but reports which were abandoned.  An
in-flight operation is a settle time, `none` standing for an operation
that never settles (e.g. a continuously failing publish). -/
def close (inflight : List (Option Nat)) (timeout : Nat) : CloseOutcome :=
  { returnTime :=
      min timeout
        ((inflight.map (fun d => match d with | none => timeout | some t => t)).foldr max 0)
    ok := true
    abandoned := inflight.filter (fun d => match d with | none => true | some t => decide (timeout < t)) }

end MessageBroker

/-- An inbound activity, as the spec's data model lists it: conversation
id, channel id, tenant id, sender id, activity type and an opaque
payload (the payload of an OAuth callback is its authorization code). -/
inductive ActivityType
  | message
  | oauthCallback
deriving DecidableEq

structure Activity where
  conversationId : String
  channelId : String
  tenantId : String
  senderId : String
  type : ActivityType
  payload : String
deriving DecidableEq

/-- The normalized outbound record handed to `MessageBroker.publish`:
routing metadata (the conversation id) plus the derived payload. -/
structure OutboundEvent where
  conversationId : String
  payload : String
deriving DecidableEq

namespace BotManager

/-- Result of `handleActivity`. -/
inductive HAResult
  | Rejected
  | Success
  | PublishFailedR
deriving DecidableEq

/-- Observable side effects of one `handleActivity` call, in order. -/
inductive Effect
  | storePut (cid blob : String)
  | storeDelete (cid : String)
  | publish (ev : OutboundEvent)
  | tokenExchange (code : String)
deriving DecidableEq

/-- Failures reported (logged) during one `handleActivity` call. -/
inductive Report
  | storeUnavailable
  | publishFailed
deriving DecidableEq

/-- Environment one activity is processed in: the tenant admission mode,
whether the state-store backend is reachable, and the broker's behaviour
(consecutive transient publish failures before success, retry budget). -/
structure Env where
  gate : TenantMode
  storeAvailable : Bool
  publishFailures : Nat
  retryBudget : Nat

/-- Everything one `handleActivity` call produces: its result, the store
it leaves behind, its side effects, and its failure reports. -/
structure HAOutcome where
  result : HAResult
  store : ConversationStateStore.Store
  effects : List Effect
  reports : List Report

open ConversationStateStore in
/-- Modelled from the spec: `BotManager.handleActivity` (the `BotManager`
class is not in the repository snapshot).  Step 1 resolves the tenant and
checks the gate, returning `Rejected` with no effect on deny; step 2
loads prior state (absent when the store is unavailable — non-fatal);
for a message, step 3 derives updated state and an `OutboundEvent` via
the pure bot-logic `hook`, step 4 persists best-effort (an unavailable
store is reported, not fatal), and step 5 publishes, surfacing
`PublishFailed` when the retry budget is exhausted.  For an OAuth
callback, steps 3-5 are replaced by a token exchange followed by a state
update recording the credential reference. -/
def handleActivity (env : Env) (hook : Activity → Option String → String × String)
    (now : Nat) (s : Store) (act : Activity) : HAOutcome :=
  if TenantGate.check env.gate act.tenantId then
    let prior := if env.storeAvailable then get now act.conversationId s else none
    let storeReports := if env.storeAvailable then [] else [Report.storeUnavailable]
    match act.type with
    | .oauthCallback =>
      let credRef := "cred:" ++ act.payload
      let s1 := if env.storeAvailable then put now act.conversationId credRef s else s
      let putEffects := if env.storeAvailable then [Effect.storePut act.conversationId credRef] else []
      ⟨.Success, s1, Effect.tokenExchange act.payload :: putEffects, storeReports⟩
    | .message =>
      let d := hook act prior
      let ev : OutboundEvent := ⟨act.conversationId, d.2⟩
      let s1 := if env.storeAvailable then put now act.conversationId d.1 s else s
      let putEffects := if env.storeAvailable then [Effect.storePut act.conversationId d.1] else []
      if MessageBroker.publishAttempts env.publishFailures env.retryBudget then
        ⟨.Success, s1, putEffects ++ [Effect.publish ev], storeReports⟩
      else
        ⟨.PublishFailedR, s1, putEffects, storeReports ++ [Report.publishFailed]⟩
  else
    ⟨.Rejected, s, [], []⟩

/-- The logical events delivered to the broker among a list of effects. -/
def publishedOf : List Effect → List OutboundEvent
  | [] => []
  | .publish ev :: rest => ev :: publishedOf rest
  | _ :: rest => publishedOf rest

end BotManager

namespace Scheduling

open ConversationStateStore BotManager

/-- Environment in which the scheduling model runs each activity: tenant
gate allows all, the store and the broker are healthy. -/
def benignEnv : Env :=
  { gate := .allowAll, storeAvailable := true, publishFailures := 0, retryBudget := 0 }

/-- Modelled from the spec: one execution schedule of the processing
pipeline — the activities in the order the scheduler runs them, each
processed by `handleActivity`; the returned events are the publishes in
execution order. -/
def processAll (hook : Activity → Option String → String × String) :
    List Activity → Store → Store × List OutboundEvent
  | [], s => (s, [])
  | a :: rest, s =>
    let o := handleActivity benignEnv hook 0 s a
    let r := processAll hook rest o.store
    (r.1, publishedOf o.effects ++ r.2)

/-- The processing of a single conversation's activities against its own
store entry, in order — the per-conversation serial view. -/
def runKey (hook : Activity → Option String → String × String) :
    List Activity → Option StoreEntry → Option StoreEntry × List OutboundEvent
  | [], v => (v, [])
  | a :: rest, v =>
    match a.type with
    | .oauthCallback =>
      runKey hook rest (some ⟨"cred:" ++ a.payload, 0 + ttlSeconds⟩)
    | .message =>
      let d := hook a (getEntry 0 v)
      let r := runKey hook rest (some ⟨d.1, 0 + ttlSeconds⟩)
      (r.1, OutboundEvent.mk a.conversationId d.2 :: r.2)

/-- A schedule is valid for an arrival order when every conversation's
activities appear in it in arrival order (per-conversation FIFO). -/
def validSchedule (arrival sched : List Activity) : Prop :=
  ∀ cid : String,
    sched.filter (fun a => decide (a.conversationId = cid)) =
      arrival.filter (fun a => decide (a.conversationId = cid))

/-- A concrete bot-logic hook used in scenarios: the updated blob appends
the activity payload to the prior blob, and the event carries the
payload. -/
def appendHook : Activity → Option String → String × String :=
  fun a p => ((p.getD "") ++ a.payload, a.payload)

end Scheduling

/-- The two operations the `app.js` SIGINT handler performs. -/
inductive ShutdownOp
  | brokerClose
  | serverClose
deriving DecidableEq

/-- What the SIGINT handler does, embedded from `app.js` lines 121-135:
which operations it invokes in which order, and the timeout argument it
passes to `rabmq.close` (it passes none). -/
structure SigintTrace where
  ops : List ShutdownOp
  brokerCloseTimeoutArg : Option Nat
deriving DecidableEq

/-- The SIGINT handler of `app.js`: it first invokes `rabmq.close()`
(with no timeout argument), then `server.close(cb)`, which stops the
server from accepting new connections and waits for existing connections
to finish. -/
def appSigintTrace : SigintTrace :=
  { ops := [ShutdownOp.brokerClose, ShutdownOp.serverClose]
    brokerCloseTimeoutArg := none }

/-- Exit status produced by the `app.js` SIGINT handler, as a function of
whether the broker close and the server close reported errors: the
handler calls `process.exit(1)` only in the error branch of the
`server.close` callback; the result of `rabmq.close()` is only awaited
for a debug log and never consulted for the exit status, and on a clean
shutdown the process exits 0 when the event loop drains. -/
def sigintExitCode (brokerErr serverErr : Bool) : Nat :=
  if serverErr then 1 else 0

/-- The shutdown order the spec asserts, as a predicate on a SIGINT
trace: the webhook transport stops accepting first, broker close (with a
timeout) is invoked second. -/
def specShutdownOrder (tr : SigintTrace) : Prop :=
  tr.ops = [ShutdownOp.serverClose, ShutdownOp.brokerClose] ∧
    tr.brokerCloseTimeoutArg.isSome = true

/-- C1 (counterexample): the SIGINT handler of `app.js` does not follow
the claimed order — it invokes `rabmq.close()` first (and with no timeout
argument) and only then `server.close`, so the claim's order predicate
fails on the embedded trace. -/
theorem c1_shutdown_order_cex : ¬ specShutdownOrder appSigintTrace := by
  intro h
  exact absurd h.1 (by decide)

/-- C1 (amended): on SIGINT, `rabmq.close()` is invoked first, with no
timeout argument, and then the server stops accepting new connections
and waits for existing connections; the two operations occur in exactly
this order. -/
theorem c1_shutdown_order_amended :
    appSigintTrace.ops = [ShutdownOp.brokerClose, ShutdownOp.serverClose] ∧
      appSigintTrace.brokerCloseTimeoutArg = none ∧
      appSigintTrace.ops.indexOf ShutdownOp.brokerClose <
        appSigintTrace.ops.indexOf ShutdownOp.serverClose := by
  refine ⟨rfl, rfl, ?_⟩
  decide

/-- C7 (counterexample): the claim that the process exits non-zero
whenever the broker close reported an error is false of the `app.js`
SIGINT handler — when the broker close errors but the server close
succeeds, the exit status is 0, because only the `server.close` callback
ever calls `process.exit(1)`. -/
theorem c7_exit_status_cex :
    ¬ (sigintExitCode false false = 0 ∧ ∀ s : Bool, sigintExitCode true s ≠ 0) := by
  intro h
  exact h.2 false (by decide)

/-- C7 (amended): after shutdown the process exits 0 on a clean shutdown,
and its exit status is decided by the server close alone: 1 exactly when
`server.close` reports an error, independent of whether the broker close
reported one. -/
theorem c7_exit_status_amended :
    ∀ brokerErr : Bool,
      sigintExitCode brokerErr false = 0 ∧ sigintExitCode brokerErr true = 1 := by
  decide

/-- C10: at the time `server.listen` runs, the effective tenant mode is
allow-all for every initial mode: the deny-all empty allow-list set at
startup (which would deny every tenant) is overwritten by
`resetAllowedTenants` before the server can handle any request, so no
activity is rejected on tenant grounds in the shipped configuration. -/
theorem c10_allow_all_at_listen :
    ∀ init : TenantMode,
      modeAtListen init = TenantMode.allowAll ∧
        (∀ t : String, TenantGate.check (modeAtListen init) t = true) ∧
        (∀ t : String, TenantGate.check (TenantMode.allowList []) t = false) := by
  intro init
  refine ⟨rfl, fun t => rfl, fun t => rfl⟩

/-- C6: `MessageBroker.close(timeout)` returns within the timeout, with a
success status, even when some in-flight operations never settle (a
continuously failing publish is a `none` settle time); the operations it
reports as abandoned are exactly those not settled by the timeout. -/
theorem c6_close_bounded :
    ∀ (inflight : List (Option Nat)) (timeout : Nat),
      (MessageBroker.close inflight timeout).returnTime ≤ timeout ∧
        (MessageBroker.close inflight timeout).ok = true ∧
        ∀ d : Option Nat,
          d ∈ (MessageBroker.close inflight timeout).abandoned ↔
            d ∈ inflight ∧ (d = none ∨ ∃ t, d = some t ∧ timeout < t) := by
  intro inflight timeout
  refine ⟨Nat.min_le_left _ _, rfl, ?_⟩
  intro d
  simp only [MessageBroker.close, List.mem_filter]
  constructor
  · rintro ⟨hm, hd⟩
    refine ⟨hm, ?_⟩
    cases d with
    | none => exact Or.inl rfl
    | some t => exact Or.inr ⟨t, rfl, by simpa using hd⟩
  · rintro ⟨hm, hd⟩
    refine ⟨hm, ?_⟩
    cases d with
    | none => rfl
    | some t =>
      rcases hd with h | ⟨u, hu, hlt⟩
      · exact absurd h (by simp)
      · cases hu
        simpa using hlt

open ConversationStateStore in
/-- C3: the TTL configured in `app.js` is 30 * 60 = 1800 seconds; a `get`
at or after TTL seconds past the last `put` returns absent regardless of
any eviction pass, and in the spec's scenario a blob put at t = 0 is
still readable at t = 1799 and absent at t = 1801. -/
theorem c3_ttl_expiry :
    ttlSeconds = 1800 ∧
      (∀ (s : Store) (cid blob : String) (tput tget : Nat),
        tput + ttlSeconds ≤ tget → get tget cid (put tput cid blob s) = none) ∧
      get 1799 "conv1" (put 0 "conv1" "A" emptyStore) = some "A" ∧
      get 1801 "conv1" (put 0 "conv1" "A" emptyStore) = none := by
  refine ⟨rfl, ?_, by decide, by decide⟩
  intro s cid blob tput tget h
  simp [ConversationStateStore.get, ConversationStateStore.put,
    ConversationStateStore.getEntry]
  omega

open ConversationStateStore in
/-- C4: a `get` following a `put` of any blob for any conversation id,
performed at any time strictly inside the TTL window, returns exactly the
stored blob. -/
theorem c4_put_get_roundtrip :
    ∀ (s : Store) (cid blob : String) (tput tget : Nat),
      tget < tput + ttlSeconds → get tget cid (put tput cid blob s) = some blob := by
  intro s cid blob tput tget h
  simp [ConversationStateStore.get, ConversationStateStore.put,
    ConversationStateStore.getEntry, h]

open ConversationStateStore in
/-- Witness for C3: instantiates the expiry statement at the boundary
t = 1800 after a put at t = 0. -/
theorem c3_ttl_expiry_witness :
    get 1800 "c" (put 0 "c" "B" emptyStore) = none :=
  c3_ttl_expiry.2.1 emptyStore "c" "B" 0 1800 (by decide)

open ConversationStateStore in
/-- Witness for C4: a put at t = 0 read back at t = 0 returns the blob. -/
theorem c4_put_get_roundtrip_witness :
    get 0 "c" (put 0 "c" "B" emptyStore) = some "B" :=
  c4_put_get_roundtrip emptyStore "c" "B" 0 0 (by decide)

/-- A publish within budget succeeds exactly when the number of
consecutive transient failures does not exceed the retry budget. -/
theorem publishAttempts_true_iff (f b : Nat) :
    MessageBroker.publishAttempts f b = true ↔ f ≤ b := by
  induction f generalizing b with
  | zero => simp [MessageBroker.publishAttempts]
  | succ f ih =>
    cases b with
    | zero => simp [MessageBroker.publishAttempts]
    | succ b =>
      rw [MessageBroker.publishAttempts, ih]
      omega

/-- C2: an activity whose tenant is not in the explicit allow-list is
rejected with no effect at all: `handleActivity` returns `Rejected`, the
store is returned unchanged (no put or delete), and the effect list is
empty (no publish), whatever the bot hook, the store contents, the clock,
the store's availability and the broker's behaviour. -/
theorem c2_tenant_denied_no_effects :
    ∀ (allowed : List String) (hook : Activity → Option String → String × String)
      (act : Activity) (s : ConversationStateStore.Store) (now : Nat)
      (sa : Bool) (f b : Nat),
      allowed.contains act.tenantId = false →
      BotManager.handleActivity ⟨.allowList allowed, sa, f, b⟩ hook now s act =
        ⟨.Rejected, s, [], []⟩ := by
  intro allowed hook act s now sa f b h
  rw [BotManager.handleActivity]
  simp only [TenantGate.check, h]
  rfl

/-- Witness for C2: the spec's scenario — allow-list `["tenantX"]`, an
activity from `"tenantY"` is rejected with no store change and no
publish. -/
theorem c2_tenant_denied_no_effects_witness :
    BotManager.handleActivity ⟨.allowList ["tenantX"], true, 0, 0⟩
        (fun a p => ((p.getD "") ++ a.payload, a.payload)) 0
        ConversationStateStore.emptyStore
        ⟨"conv1", "chan", "tenantY", "user", .message, "hi"⟩ =
      ⟨.Rejected, ConversationStateStore.emptyStore, [], []⟩ :=
  c2_tenant_denied_no_effects ["tenantX"]
    (fun a p => ((p.getD "") ++ a.payload, a.payload))
    ⟨"conv1", "chan", "tenantY", "user", .message, "hi"⟩
    ConversationStateStore.emptyStore 0 true 0 0 (by decide)

/-- C5: for an admitted message activity processed while the store
backend is unavailable, `handleActivity` still publishes the outbound
event and still reports success — the store failure is reported via
`storeUnavailable` but is non-fatal, and the store is left as it was
(processing continues without caching). -/
theorem c5_store_failure_nonfatal :
    ∀ (mode : TenantMode) (hook : Activity → Option String → String × String)
      (act : Activity) (s : ConversationStateStore.Store) (now f b : Nat),
      TenantGate.check mode act.tenantId = true →
      act.type = ActivityType.message →
      f ≤ b →
      BotManager.handleActivity ⟨mode, false, f, b⟩ hook now s act =
        ⟨.Success, s,
         [BotManager.Effect.publish ⟨act.conversationId, (hook act none).2⟩],
         [BotManager.Report.storeUnavailable]⟩ := by
  intro mode hook act s now f b hgate hty hfb
  rw [BotManager.handleActivity]
  simp only [hgate, hty, if_true, Bool.ite_eq_true_distrib]
  simp [(publishAttempts_true_iff f b).2 hfb]

/-- Witness for C5: a concrete admitted activity with the store down and
a healthy broker is published and succeeds while the store failure is
reported. -/
theorem c5_store_failure_nonfatal_witness :
    BotManager.handleActivity ⟨.allowAll, false, 0, 0⟩
        (fun a p => ((p.getD "") ++ a.payload, a.payload)) 5
        ConversationStateStore.emptyStore
        ⟨"conv1", "chan", "tenantX", "user", .message, "hi"⟩ =
      ⟨.Success, ConversationStateStore.emptyStore,
       [BotManager.Effect.publish ⟨"conv1", "hi"⟩],
       [BotManager.Report.storeUnavailable]⟩ :=
  c5_store_failure_nonfatal .allowAll
    (fun a p => ((p.getD "") ++ a.payload, a.payload))
    ⟨"conv1", "chan", "tenantX", "user", .message, "hi"⟩
    ConversationStateStore.emptyStore 5 0 0 rfl rfl (by decide)

/-- C9: `publish` succeeds exactly when the consecutive transient
failures do not exceed the retry budget — it fails with `PublishFailed`
only once the budget is exhausted — and in the spec's scenario (three
failures then success, retry budget at least 3) an admitted message
activity is processed successfully with exactly one logical event
delivered. -/
theorem c9_publish_retry :
    (∀ f b : Nat, MessageBroker.publishAttempts f b = false ↔ b < f) ∧
      ∀ (hook : Activity → Option String → String × String) (act : Activity)
        (s : ConversationStateStore.Store) (now b : Nat),
        act.type = ActivityType.message →
        3 ≤ b →
        (BotManager.handleActivity ⟨.allowAll, true, 3, b⟩ hook now s act).result =
            .Success ∧
          BotManager.publishedOf
              (BotManager.handleActivity ⟨.allowAll, true, 3, b⟩ hook now s act).effects =
            [⟨act.conversationId,
              (hook act (ConversationStateStore.get now act.conversationId s)).2⟩] := by
  constructor
  · intro f b
    rw [← Bool.not_eq_true, publishAttempts_true_iff]
    omega
  · intro hook act s now b hty hb
    rw [BotManager.handleActivity]
    simp only [TenantGate.check, hty, if_true]
    simp [(publishAttempts_true_iff 3 b).2 hb, BotManager.publishedOf]

/-- Witness for C9: with retry budget exactly 3 and three transient
failures, a concrete message activity succeeds and delivers exactly one
event. -/
theorem c9_publish_retry_witness :
    (BotManager.handleActivity ⟨.allowAll, true, 3, 3⟩
          (fun a p => ((p.getD "") ++ a.payload, a.payload)) 0
          ConversationStateStore.emptyStore
          ⟨"conv1", "chan", "tenantX", "user", .message, "hi"⟩).result =
        .Success ∧
      BotManager.publishedOf
          (BotManager.handleActivity ⟨.allowAll, true, 3, 3⟩
              (fun a p => ((p.getD "") ++ a.payload, a.payload)) 0
              ConversationStateStore.emptyStore
              ⟨"conv1", "chan", "tenantX", "user", .message, "hi"⟩).effects =
        [⟨"conv1", "hi"⟩] :=
  c9_publish_retry.2 (fun a p => ((p.getD "") ++ a.payload, a.payload))
    ⟨"conv1", "chan", "tenantX", "user", .message, "hi"⟩
    ConversationStateStore.emptyStore 0 3 rfl (by decide)

namespace Scheduling

open ConversationStateStore BotManager

/-- In the benign environment a message activity is processed into a
store update at its own conversation id and a single publish. -/
theorem handle_benign_message (hook : Activity → Option String → String × String)
    (s : Store) (a : Activity) (h : a.type = ActivityType.message) :
    handleActivity benignEnv hook 0 s a =
      ⟨.Success,
       put 0 a.conversationId (hook a (get 0 a.conversationId s)).1 s,
       [Effect.storePut a.conversationId (hook a (get 0 a.conversationId s)).1,
        Effect.publish ⟨a.conversationId, (hook a (get 0 a.conversationId s)).2⟩],
       []⟩ := by
  obtain ⟨c, ch, t, sd, ty, p⟩ := a
  cases h
  rfl

/-- In the benign environment an OAuth callback is processed into a
token exchange and a credential-reference store update, with no
publish. -/
theorem handle_benign_oauth (hook : Activity → Option String → String × String)
    (s : Store) (a : Activity) (h : a.type = ActivityType.oauthCallback) :
    handleActivity benignEnv hook 0 s a =
      ⟨.Success,
       put 0 a.conversationId ("cred:" ++ a.payload) s,
       [Effect.tokenExchange a.payload,
        Effect.storePut a.conversationId ("cred:" ++ a.payload)],
       []⟩ := by
  obtain ⟨c, ch, t, sd, ty, p⟩ := a
  cases h
  rfl

/-- The store entry a schedule leaves at a conversation id, and the
publishes it emits for that id, depend only on the subsequence of the
schedule with that conversation id: they equal the per-conversation
serial run of that subsequence. -/
theorem processAll_key (hook : Activity → Option String → String × String)
    (acts : List Activity) :
    ∀ (s : Store) (cid : String),
      (processAll hook acts s).1 cid =
          (runKey hook (acts.filter (fun a => decide (a.conversationId = cid))) (s cid)).1 ∧
        (processAll hook acts s).2.filter (fun ev => decide (ev.conversationId = cid)) =
          (runKey hook (acts.filter (fun a => decide (a.conversationId = cid))) (s cid)).2 := by
  induction acts with
  | nil => exact fun s cid => ⟨rfl, rfl⟩
  | cons a rest ih =>
    intro s cid
    by_cases hc : a.conversationId = cid
    · cases hty : a.type with
      | message =>
        rw [processAll, handle_benign_message hook s a hty]
        have hput : (put 0 a.conversationId (hook a (get 0 a.conversationId s)).1 s) cid =
            some ⟨(hook a (get 0 a.conversationId s)).1, 0 + ttlSeconds⟩ := by
          show (if cid = a.conversationId then _ else _) = _
          rw [if_pos hc.symm]
        have hget : get 0 a.conversationId s = getEntry 0 (s cid) := by
          show getEntry 0 (s a.conversationId) = getEntry 0 (s cid)
          rw [hc]
        have hfa : (a :: rest).filter (fun x => decide (x.conversationId = cid)) =
            a :: rest.filter (fun x => decide (x.conversationId = cid)) :=
          List.filter_cons_of_pos (by simp [hc])
        obtain ⟨ih1, ih2⟩ :=
          ih (put 0 a.conversationId (hook a (get 0 a.conversationId s)).1 s) cid
        constructor
        · rw [ih1, hput, hfa, runKey, hty]
          simp only [← hget]
        · simp only [publishedOf, List.singleton_append]
          rw [List.filter_cons_of_pos (by simp [hc]), ih2, hput, hfa, runKey, hty]
          simp only [← hget]
      | oauthCallback =>
        rw [processAll, handle_benign_oauth hook s a hty]
        have hput : (put 0 a.conversationId ("cred:" ++ a.payload) s) cid =
            some ⟨"cred:" ++ a.payload, 0 + ttlSeconds⟩ := by
          show (if cid = a.conversationId then _ else _) = _
          rw [if_pos hc.symm]
        have hfa : (a :: rest).filter (fun x => decide (x.conversationId = cid)) =
            a :: rest.filter (fun x => decide (x.conversationId = cid)) :=
          List.filter_cons_of_pos (by simp [hc])
        obtain ⟨ih1, ih2⟩ := ih (put 0 a.conversationId ("cred:" ++ a.payload) s) cid
        constructor
        · rw [ih1, hput, hfa, runKey, hty]
        · simp only [publishedOf, List.nil_append]
          rw [ih2, hput, hfa, runKey, hty]
    · cases hty : a.type with
      | message =>
        rw [processAll, handle_benign_message hook s a hty]
        have hput : (put 0 a.conversationId (hook a (get 0 a.conversationId s)).1 s) cid =
            s cid := by
          show (if cid = a.conversationId then _ else _) = _
          rw [if_neg (fun hk => hc hk.symm)]
        have hfa : (a :: rest).filter (fun x => decide (x.conversationId = cid)) =
            rest.filter (fun x => decide (x.conversationId = cid)) :=
          List.filter_cons_of_neg (by simp [hc])
        obtain ⟨ih1, ih2⟩ :=
          ih (put 0 a.conversationId (hook a (get 0 a.conversationId s)).1 s) cid
        constructor
        · rw [ih1, hput, hfa]
        · simp only [publishedOf, List.singleton_append]
          rw [List.filter_cons_of_neg (by simp [hc]), ih2, hput, hfa]
      | oauthCallback =>
        rw [processAll, handle_benign_oauth hook s a hty]
        have hput : (put 0 a.conversationId ("cred:" ++ a.payload) s) cid = s cid := by
          show (if cid = a.conversationId then _ else _) = _
          rw [if_neg (fun hk => hc hk.symm)]
        have hfa : (a :: rest).filter (fun x => decide (x.conversationId = cid)) =
            rest.filter (fun x => decide (x.conversationId = cid)) :=
          List.filter_cons_of_neg (by simp [hc])
        obtain ⟨ih1, ih2⟩ := ih (put 0 a.conversationId ("cred:" ++ a.payload) s) cid
        constructor
        · rw [ih1, hput, hfa]
        · simp only [publishedOf, List.nil_append]
          rw [ih2, hput, hfa]

end Scheduling

open Scheduling ConversationStateStore in
/-- C8: any valid schedule — any execution order that keeps each
conversation's activities in arrival order — leaves, for every
conversation id, the same store entry and the same publish sequence as
processing strictly in arrival order (so no update is lost and
per-conversation publishes happen in arrival order); two same-id
activities end with both updates applied in order; and across distinct
conversation ids no global publish order is guaranteed: two valid
schedules of the same arrivals can publish in different global orders. -/
theorem c8_per_conversation_order :
    (∀ (hook : Activity → Option String → String × String)
       (arrival sched : List Activity) (s : Store),
       validSchedule arrival sched →
       ∀ cid : String,
         (processAll hook sched s).1 cid = (processAll hook arrival s).1 cid ∧
           (processAll hook sched s).2.filter (fun ev => decide (ev.conversationId = cid)) =
             (processAll hook arrival s).2.filter (fun ev => decide (ev.conversationId = cid))) ∧
      (processAll appendHook
          [⟨"convZ", "ch", "t", "u", .message, "x"⟩,
           ⟨"convZ", "ch", "t", "u", .message, "y"⟩] emptyStore).1 "convZ" =
        some ⟨"xy", 1800⟩ ∧
      ∃ arrival sched : List Activity,
        validSchedule arrival sched ∧
          (processAll appendHook sched emptyStore).2 ≠
            (processAll appendHook arrival emptyStore).2 := by
  refine ⟨?_, by decide, ?_⟩
  · intro hook arrival sched s hv cid
    obtain ⟨h1, h2⟩ := processAll_key hook sched s cid
    obtain ⟨g1, g2⟩ := processAll_key hook arrival s cid
    rw [h1, h2, g1, g2, hv cid]
    exact ⟨rfl, rfl⟩
  · refine ⟨[⟨"A", "ch", "t", "u", .message, "x"⟩, ⟨"B", "ch", "t", "u", .message, "y"⟩],
      [⟨"B", "ch", "t", "u", .message, "y"⟩, ⟨"A", "ch", "t", "u", .message, "x"⟩], ?_, by decide⟩
    intro cid
    by_cases h1 : ("A" : String) = cid <;> by_cases h2 : ("B" : String) = cid
    · exact absurd (h1.trans h2.symm) (by decide)
    · simp [List.filter, h1, h2]
    · simp [List.filter, h1, h2]
    · simp [List.filter, h1, h2]

open Scheduling ConversationStateStore in
/-- Witness for C8: the swapped schedule of two activities for distinct
conversations is valid, and instantiating the theorem at it shows each
conversation's final entry and publish subsequence agree with the
arrival-order run. -/
theorem c8_per_conversation_order_witness :
    (processAll appendHook
          [⟨"B", "ch", "t", "u", .message, "y"⟩, ⟨"A", "ch", "t", "u", .message, "x"⟩]
          emptyStore).1 "A" =
        (processAll appendHook
          [⟨"A", "ch", "t", "u", .message, "x"⟩, ⟨"B", "ch", "t", "u", .message, "y"⟩]
          emptyStore).1 "A" ∧
      (processAll appendHook
          [⟨"B", "ch", "t", "u", .message, "y"⟩, ⟨"A", "ch", "t", "u", .message, "x"⟩]
          emptyStore).2.filter (fun ev => decide (ev.conversationId = "A")) =
        (processAll appendHook
          [⟨"A", "ch", "t", "u", .message, "x"⟩, ⟨"B", "ch", "t", "u", .message, "y"⟩]
          emptyStore).2.filter (fun ev => decide (ev.conversationId = "A")) :=
  c8_per_conversation_order.1 appendHook
    [⟨"A", "ch", "t", "u", .message, "x"⟩, ⟨"B", "ch", "t", "u", .message, "y"⟩]
    [⟨"B", "ch", "t", "u", .message, "y"⟩, ⟨"A", "ch", "t", "u", .message, "x"⟩]
    emptyStore
    (by
      intro cid
      by_cases h1 : ("A" : String) = cid <;> by_cases h2 : ("B" : String) = cid
      · exact absurd (h1.trans h2.symm) (by decide)
      · simp [List.filter, h1, h2]
      · simp [List.filter, h1, h2]
      · simp [List.filter, h1, h2])
    "A"

end MSTeamsCore
